import Mathlib

/-!
Verification of the rvlator RV64I simulator core (`src/rvlator.rs`).

The Rust source is shallowly embedded: `u32`/`u64` values are `Nat` with
explicit `% 2^64` where the Rust operation truncates, fallible operations
return sum types, and Rust panics (array index out of bounds, `assert!`,
`panic!`, and debug-build arithmetic overflow such as `1u64 << 64` or an
overflowing `+`) are modelled as an explicit `panicked` outcome.
-/

/-- Embeds the Rust macro `bitmask32!(width, pos)`:
`(((1 as u32) << width) - 1) << pos`.  All call sites keep the result
below `2^32`, so plain `Nat` arithmetic coincides with `u32` arithmetic. -/
def bitmask32 (width pos : Nat) : Nat :=
  ((1 <<< width) - 1) <<< pos

/-- Embeds the Rust macro `getfield32!(val, width, pos)`:
`(val & bitmask32!(width, pos)) >> pos`. -/
def getfield32 (val width pos : Nat) : Nat :=
  (val &&& bitmask32 width pos) >>> pos

/-- Embeds `signext12to64`: sign extension of a 12-bit immediate field,
testing `val >> 11 == 1` and or-ing `u64::MAX - ((1 << 12) - 1)`. -/
def signext12to64 (val : Nat) : Nat :=
  if val >>> (12 - 1) = 1 then
    val ||| ((2 ^ 64 - 1) - ((1 <<< 12) - 1))
  else
    val

/-- Embeds `signext20to64`: sign extension of a 20-bit immediate field,
testing `val >> 19 == 1` and or-ing `u64::MAX - ((1 << 20) - 1)`. -/
def signext20to64 (val : Nat) : Nat :=
  if val >>> (20 - 1) = 1 then
    val ||| ((2 ^ 64 - 1) - ((1 <<< 20) - 1))
  else
    val

/-- Embeds `signext_nto64(val, bits)`.  The Rust body is
`if (val >> (bits - 1)) == 0x1 { val | (u64::MAX - ((1 << bits) - 1)) } else { val }`
on `u64` operands.  In a debug build `bits - 1` underflows for `bits = 0`,
`val >> (bits - 1)` is a shift-overflow for `bits - 1 >= 64`, and
`1 << bits` is a shift-overflow for `bits >= 64`; each of those panics,
modelled here as `none`.  The last case is reachable: SRAI with
`shamt = 0` calls this with `bits = 64`, and then `1 << 64` is evaluated
exactly when the tested bit is set. -/
def signext_nto64 (val bits : Nat) : Option Nat :=
  if bits = 0 then
    none
  else if 64 ≤ bits - 1 then
    none
  else if val >>> (bits - 1) = 1 then
    if 64 ≤ bits then
      none
    else
      some (val ||| ((2 ^ 64 - 1) - ((1 <<< bits) - 1)))
  else
    some val

/-- A `u64` value reinterpreted as a signed two's-complement `i64`
(the Rust cast `as i64`). -/
def toInt64 (v : Nat) : Int :=
  if v < 2 ^ 63 then (v : Int) else (v : Int) - 2 ^ 64

/-- Embeds `struct RiscvCpu`: the 32-entry 64-bit register file `ixu`
(modelled as a total map from index to value), the program counter `pc`,
and the byte-addressable memory `mem`. -/
structure RiscvCpu where
  ixu : Nat → Nat
  pc : Nat
  mem : List Nat

/-- Embeds `RiscvCpu::new`: registers all zero, `pc` at the reset
vector 0, memory the supplied byte image. -/
def RiscvCpu.new (code : List Nat) : RiscvCpu :=
  { ixu := fun _ => 0, pc := 0, mem := code }

/-- The outcome of `RiscvCpu::fetch`: a fetched word, the typed
`RiscvCpuError::FetchError`, or a Rust panic (array index out of
bounds). -/
inductive FetchResult where
  | ok (w : Nat)
  | fetchError
  | panicked
deriving DecidableEq, Repr

/-- Embeds `RiscvCpu::fetch`.  The source guards only `pc < mem.len()`
and then indexes `mem[pc] ..= mem[pc+3]`; an index at or beyond
`mem.len()` is a Rust panic, modelled by the `none` cases. -/
def RiscvCpu.fetch (cpu : RiscvCpu) : FetchResult :=
  if cpu.pc < cpu.mem.length then
    match cpu.mem[cpu.pc]?, cpu.mem[cpu.pc + 1]?,
          cpu.mem[cpu.pc + 2]?, cpu.mem[cpu.pc + 3]? with
    | some b0, some b1, some b2, some b3 =>
        FetchResult.ok (b0 ||| (b1 <<< 8) ||| (b2 <<< 16) ||| (b3 <<< 24))
    | _, _, _, _ => FetchResult.panicked
  else
    FetchResult.fetchError

/-- The outcome of `RiscvCpu::execute`: `Ok(())`, the typed
`RiscvCpuError::DecodeError`, or a Rust panic (`panic!`, `assert!`
failure, or debug-build arithmetic overflow). -/
inductive ExecResult where
  | ok
  | decodeError
  | panicked
deriving DecidableEq, Repr

/-- A register-file write `self.ixu[rd] = v`. -/
def writeReg (cpu : RiscvCpu) (rd v : Nat) : RiscvCpu :=
  { cpu with ixu := fun i => if i = rd then v else cpu.ixu i }

/-- Embeds `RiscvCpu::execute`.  Field extractions use the source's
`INST_*` constants (opcode at 0 width 7, rd at 7 width 5, funct3 at 12
width 3, rs1 at 15 width 5, imm[11:0] at 20 width 12, imm[31:12] at 12
width 20, shamt at 20 width 6, funct7 at 25 width 7).  The `match` arms
on opcode/funct3/funct7 literals are written as equality tests; every
`_ => panic!` arm, every failed `sanitizereg!` assertion, and every
debug-build arithmetic overflow (the non-wrapping `+` of AUIPC, the
`1 << 64` inside `signext_nto64` reached by SRAI with `shamt = 0`)
yields `ExecResult.panicked`. -/
def RiscvCpu.execute (cpu : RiscvCpu) (inst : Nat) : ExecResult × RiscvCpu :=
  let enc := getfield32 inst 2 0
  let bbb := getfield32 inst 3 2
  if enc ≠ 3 ∨ bbb = 7 then
    (ExecResult.decodeError, cpu)
  else
    let opcode := getfield32 inst 7 0
    if opcode = 0b0010111 then
      -- AUIPC
      let rd := getfield32 inst 5 7
      if rd < 32 then
        let imm20 := getfield32 inst 20 12
        let simm20 := signext20to64 imm20
        let offset := (simm20 <<< 12) % 2 ^ 64
        if cpu.pc + offset < 2 ^ 64 then
          (ExecResult.ok, writeReg cpu rd (cpu.pc + offset))
        else
          (ExecResult.panicked, cpu)
      else
        (ExecResult.panicked, cpu)
    else if opcode = 0b0110111 then
      -- LUI
      let rd := getfield32 inst 5 7
      if rd < 32 then
        let imm20 := getfield32 inst 20 12
        let simm20 := signext20to64 imm20
        (ExecResult.ok, writeReg cpu rd ((simm20 <<< 12) % 2 ^ 64))
      else
        (ExecResult.panicked, cpu)
    else if opcode = 0b0010011 then
      -- ADDI, SLLI, SLTI, SLTIU, XORI, SRLI/SRAI, ORI, ANDI
      let rd := getfield32 inst 5 7
      if rd < 32 then
        let rs1 := getfield32 inst 5 15
        if rs1 < 32 then
          let imm12 := getfield32 inst 12 20
          let simm12 := signext12to64 imm12
          let funct3 := getfield32 inst 3 12
          if funct3 = 0b000 then
            (ExecResult.ok, writeReg cpu rd ((cpu.ixu rs1 + simm12) % 2 ^ 64))
          else if funct3 = 0b001 then
            let shamt := getfield32 inst 6 20
            (ExecResult.ok, writeReg cpu rd ((cpu.ixu rs1 <<< shamt) % 2 ^ 64))
          else if funct3 = 0b010 then
            (ExecResult.ok, writeReg cpu rd
              (if toInt64 (cpu.ixu rs1) < toInt64 simm12 then 1 else 0))
          else if funct3 = 0b011 then
            (ExecResult.ok, writeReg cpu rd
              (if cpu.ixu rs1 < simm12 then 1 else 0))
          else if funct3 = 0b100 then
            (ExecResult.ok, writeReg cpu rd (cpu.ixu rs1 ^^^ simm12))
          else if funct3 = 0b101 then
            let funct7 := getfield32 inst 7 25
            let shamt := getfield32 inst 6 20
            if funct7 = 0b0000000 then
              (ExecResult.ok, writeReg cpu rd (cpu.ixu rs1 >>> shamt))
            else if funct7 = 0b0100000 then
              match signext_nto64 (cpu.ixu rs1 >>> shamt) (64 - shamt) with
              | some v => (ExecResult.ok, writeReg cpu rd v)
              | none => (ExecResult.panicked, cpu)
            else
              (ExecResult.panicked, cpu)
          else if funct3 = 0b110 then
            (ExecResult.ok, writeReg cpu rd (cpu.ixu rs1 ||| simm12))
          else if funct3 = 0b111 then
            (ExecResult.ok, writeReg cpu rd (cpu.ixu rs1 &&& simm12))
          else
            (ExecResult.panicked, cpu)
        else
          (ExecResult.panicked, cpu)
      else
        (ExecResult.panicked, cpu)
    else
      (ExecResult.panicked, cpu)

/-- A freshly constructed CPU with empty memory, for concrete runs. -/
def cpu0 : RiscvCpu := RiscvCpu.new []

/-- Every extracted field is bounded by its width: the mask-and-shift of
`getfield32` equals shifting then truncating to `width` bits. -/
theorem getfield32_eq_shiftRight_mod (v w p : Nat) :
    getfield32 v w p = (v >>> p) % 2 ^ w := by
  apply Nat.eq_of_testBit_eq
  intro j
  rcases Nat.lt_or_ge j w with h | h
  · simp [getfield32, bitmask32, Nat.one_shiftLeft, Nat.testBit_shiftLeft,
      Nat.testBit_shiftRight, Nat.testBit_mod_two_pow, Nat.testBit_and,
      Nat.testBit_two_pow_sub_one, h, Nat.add_comm p j]
  · simp [getfield32, bitmask32, Nat.one_shiftLeft, Nat.testBit_shiftLeft,
      Nat.testBit_shiftRight, Nat.testBit_mod_two_pow, Nat.testBit_and,
      Nat.testBit_two_pow_sub_one, Nat.not_lt.mpr h]

/-- Field values are below `2 ^ width`. -/
theorem getfield32_lt (v w p : Nat) : getfield32 v w p < 2 ^ w := by
  rw [getfield32_eq_shiftRight_mod]
  exact Nat.mod_lt _ (Nat.two_pow_pos w)

/-- When the tested bit `N-1` is clear, `signext_nto64` is the identity:
the guard `val >> (N-1) == 1` cannot hold because the shifted value is
even. -/
theorem signext_nto64_low (N v : Nat) (hN0 : N ≠ 0) (hN : N ≤ 63)
    (hbit : Nat.testBit v (N - 1) = false) : signext_nto64 v N = some v := by
  have hne : v >>> (N - 1) ≠ 1 := by
    intro hEq
    rw [Nat.shiftRight_eq_div_pow] at hEq
    rw [Nat.testBit_to_div_mod, hEq] at hbit
    simp at hbit
  unfold signext_nto64
  rw [if_neg hN0, if_neg (by omega), if_neg hne]

/-- When the argument is a proper `N`-bit value with its sign bit set,
`signext_nto64` fills all bits from `N` upward, i.e. ors in
`2^64 - 2^N` (the 64-bit truncation of `!0 << N`). -/
theorem signext_nto64_high (N v : Nat) (hN0 : N ≠ 0) (hN : N ≤ 63)
    (hvN : v < 2 ^ N) (hbit : Nat.testBit v (N - 1) = true) :
    signext_nto64 v N = some (v ||| (2 ^ 64 - 2 ^ N)) := by
  have h2N : (2 : Nat) ^ N = 2 ^ (N - 1) * 2 := by
    conv_lhs => rw [show N = (N - 1) + 1 by omega]
    rw [Nat.pow_succ]
  have hlt : v / 2 ^ (N - 1) < 2 := by
    rw [Nat.div_lt_iff_lt_mul (Nat.two_pow_pos _)]
    omega
  have heq : v >>> (N - 1) = 1 := by
    rw [Nat.testBit_to_div_mod] at hbit
    have hmod := of_decide_eq_true hbit
    rw [Nat.shiftRight_eq_div_pow, ← Nat.mod_eq_of_lt hlt]
    exact hmod
  unfold signext_nto64
  rw [if_neg hN0, if_neg (by omega), if_pos heq, if_neg (by omega)]
  congr 1
  rw [Nat.one_shiftLeft]
  congr 1
  have h1 : (1 : Nat) ≤ 2 ^ N := Nat.one_le_two_pow
  have h2 : (2 : Nat) ^ N ≤ 2 ^ 64 := Nat.pow_le_pow_right (by norm_num) (by omega)
  omega

/-- The spec's description of SRAI (`§4.5`): shift right by `shamt` and
fill the vacated high bits with the sign bit (bit 63) of the operand.
Stated from the spec's words, to be compared with what `execute`
computes through `signext_nto64`. -/
def sraSpec (v shamt : Nat) : Nat :=
  if Nat.testBit v 63 = true then
    (v >>> shamt) ||| (2 ^ 64 - 2 ^ (64 - shamt))
  else
    v >>> shamt

/-- For shift amounts `1 ≤ shamt ≤ 63`, the source's
`signext_nto64(rs1 >> shamt, 64 - shamt)` computes exactly the spec's
arithmetic right shift. -/
theorem signext_nto64_shiftRight_sra (v shamt : Nat) (hv : v < 2 ^ 64)
    (hs1 : 1 ≤ shamt) (hs2 : shamt ≤ 63) :
    signext_nto64 (v >>> shamt) (64 - shamt) = some (sraSpec v shamt) := by
  have hbit : Nat.testBit (v >>> shamt) (64 - shamt - 1) = Nat.testBit v 63 := by
    rw [Nat.testBit_shiftRight]
    congr 1
    omega
  have hvs : v >>> shamt < 2 ^ (64 - shamt) := by
    rw [Nat.shiftRight_eq_div_pow, Nat.div_lt_iff_lt_mul (Nat.two_pow_pos _),
      ← Nat.pow_add, show 64 - shamt + shamt = 64 by omega]
    exact hv
  cases hb : Nat.testBit v 63 with
  | false =>
      rw [signext_nto64_low (64 - shamt) (v >>> shamt) (by omega) (by omega)
        (by rw [hbit, hb])]
      simp [sraSpec, hb]
  | true =>
      rw [signext_nto64_high (64 - shamt) (v >>> shamt) (by omega) (by omega)
        hvs (by rw [hbit, hb])]
      simp [sraSpec, hb]

/-!  ## Claim theorems -/

/-- C1: the claim says fetch succeeds exactly when `pc + 4` does not
exceed the memory length and otherwise returns `FetchError`, never a
partial or garbage word.  The code only checks `pc < mem.len()`: with a
2-byte memory and `pc = 0` we have `pc + 4 = 4 > 2`, so the claim
demands `FetchError`, but the bounds check passes and the read of
`mem[2]` is an out-of-bounds index, a Rust panic rather than the typed
error. -/
theorem C1_fetch_short_mem_panics :
    ([0x13, 0x05] : List Nat).length < 0 + 4 ∧
    RiscvCpu.fetch { ixu := fun _ => 0, pc := 0, mem := [0x13, 0x05] }
      = FetchResult.panicked := by
  constructor
  · decide
  · decide

/-- C2: the claim says reads of register 0 always yield 0, writes being
accepted but discarded.  Executing `ADDI x0, x0, 1` (word `0x00100013`)
on a freshly reset CPU returns `Ok` and leaves register 0 holding 1:
the write path has no guard for index 0, so the claimed invariant is
violated by the code (the spec itself flags this as a pending fix). -/
theorem C2_write_to_x0_observable :
    (cpu0.execute 0x00100013).1 = ExecResult.ok ∧
    (cpu0.execute 0x00100013).2.ixu 0 = 1 := by
  constructor
  · decide
  · decide

/-- C3: the claim says a word passing the 32-bit-format check whose
opcode/funct values are unimplemented yields `Err(DecodeError)` and
never terminates the process.  The word `0x00000003` has bits
`[1:0] = 11` and bits `[4:2] = 000 ≠ 111` (it passes the check; its
opcode `0b0000011` is the unimplemented LOAD class), yet `execute`
reaches the catch-all `panic!` arm and aborts the process instead of
returning the typed error. -/
theorem C3_unimplemented_opcode_panics :
    getfield32 0x00000003 2 0 = 3 ∧
    getfield32 0x00000003 3 2 ≠ 7 ∧
    (cpu0.execute 0x00000003).1 = ExecResult.panicked := by
  refine ⟨by decide, by decide, by decide⟩

/-- C4 counterexample: the claim quantifies over ALL 64-bit values `v`.
Take `N = 1` and `v = 3`: bit `N-1 = 0` of `v` is 1, so the claim
demands `signext_nto64 3 1 = 3 ||| (2^64 - 2^1)`, but the code's guard
`val >> (N-1) == 1` sees `3` (not `1`) because of the set bit above
`N-1`, and returns `3` unextended. -/
theorem C4_counterexample :
    Nat.testBit 3 0 = true ∧
    signext_nto64 3 1 ≠ some (3 ||| (2 ^ 64 - 2 ^ 1)) := by
  refine ⟨by decide, by decide⟩

/-- C4 amended: for every width `N` in `[1, 63]`, `signext_nto64` is
the identity whenever bit `N-1` is clear (any 64-bit `v`), and equals
`v ||| (!0 << N)` (all bits from `N` up set, i.e. `v ||| (2^64 - 2^N)`)
whenever `v` is a proper `N`-bit value (`v < 2^N`, the `uN` argument
type of spec §4.2) with bit `N-1` set.  Values carrying set bits above
`N-1` defeat the code's `val >> (N-1) == 1` test and are returned
unextended. -/
theorem C4_signext_nto64_amended (N v : Nat) (h1 : 1 ≤ N) (h2 : N ≤ 63)
    (hv : v < 2 ^ 64) :
    (Nat.testBit v (N - 1) = false → signext_nto64 v N = some v) ∧
    (v < 2 ^ N → Nat.testBit v (N - 1) = true →
      signext_nto64 v N = some (v ||| (2 ^ 64 - 2 ^ N))) :=
  ⟨fun hb => signext_nto64_low N v (by omega) h2 hb,
   fun hvN hb => signext_nto64_high N v (by omega) h2 hvN hb⟩

/-- C4 witness: the amended theorem evaluated at `N = 12` with a
positive value (`5`) and with a negative 12-bit value (`0x800`). -/
theorem C4_witness :
    signext_nto64 5 12 = some 5 ∧
    signext_nto64 0x800 12 = some (0x800 ||| (2 ^ 64 - 2 ^ 12)) :=
  ⟨(C4_signext_nto64_amended 12 5 (by decide) (by decide) (by decide)).1
      (by decide),
   (C4_signext_nto64_amended 12 0x800 (by decide) (by decide) (by decide)).2
      (by decide) (by decide)⟩

/-- C5 counterexample: the claim quantifies over every shamt in
`[0, 63]`.  The word `0x4005D513` encodes `SRAI x10, x11, 0`
(funct3 `101`, funct7 `0100000`, shamt 0); with `x11` holding
`2^63` (sign bit set) the claim demands `x10 = x11 >> 0 = 2^63`, but
`execute` calls `signext_nto64` with `bits = 64 - 0 = 64` and evaluates
`1u64 << 64`, an arithmetic overflow (debug-build panic), so no
register is written. -/
theorem C5_counterexample :
    (RiscvCpu.execute
      { ixu := fun i => if i = 11 then 2 ^ 63 else 0, pc := 0, mem := [] }
      0x4005D513).1 = ExecResult.panicked := by
  decide

/-- C5 amended: for every shift amount `shamt` in `[1, 63]` and every
64-bit `rs1` value, SRAI sets `rd` to the arithmetic right shift of
`rs1` by `shamt` (vacated high bits filled with the sign bit), which is
exactly sign-extending the `(64 - shamt)`-bit logical-shift result.
At `shamt = 0` the claim fails: the sign-extension helper is invoked
with width 64 and overflows a 64-bit shift whenever the sign bit is
set. -/
theorem C5_srai_amended (cpu : RiscvCpu) (inst : Nat) (h0 : inst < 2 ^ 32)
    (h1 : getfield32 inst 2 0 = 3) (h2 : getfield32 inst 3 2 ≠ 7)
    (h3 : getfield32 inst 7 0 = 0b0010011)
    (h4 : getfield32 inst 3 12 = 0b101)
    (h5 : getfield32 inst 7 25 = 0b0100000)
    (hs : 1 ≤ getfield32 inst 6 20)
    (hv : cpu.ixu (getfield32 inst 5 15) < 2 ^ 64) :
    cpu.execute inst = (ExecResult.ok, writeReg cpu (getfield32 inst 5 7)
      (sraSpec (cpu.ixu (getfield32 inst 5 15)) (getfield32 inst 6 20))) := by
  have hrd : getfield32 inst 5 7 < 32 := getfield32_lt inst 5 7
  have hrs : getfield32 inst 5 15 < 32 := getfield32_lt inst 5 15
  have hs2 : getfield32 inst 6 20 ≤ 63 := by
    have := getfield32_lt inst 6 20
    omega
  have hkey := signext_nto64_shiftRight_sra (cpu.ixu (getfield32 inst 5 15))
    (getfield32 inst 6 20) hv hs hs2
  simp [RiscvCpu.execute, h1, h2, h3, h4, h5, hrd, hrs, hkey]

/-- C5 witness: `SRAI x10, x11, 4` (word `0x4045D513`) with
`x11 = 0xF000000000000000` leaves `x10 = 0xFF00000000000000`: the four
vacated bits are filled with the sign bit. -/
theorem C5_witness :
    (RiscvCpu.execute
      { ixu := fun i => if i = 11 then 0xF000000000000000 else 0,
        pc := 0, mem := [] } 0x4045D513).2.ixu 10 = 0xFF00000000000000 := by
  rw [C5_srai_amended _ 0x4045D513 (by decide) (by decide) (by decide)
    (by decide) (by decide) (by decide) (by decide) (by decide)]
  decide

/-- C6: every 32-bit word whose bits `[1:0]` are not `11` or whose bits
`[4:2]` equal `111` is rejected by `execute` with `DecodeError`, the
architectural state left untouched (no operation executed).  The words
`0x00000000` (bits `[1:0] = 00`) and `0x0000001F` (bits `[4:2] = 111`)
both satisfy the hypothesis and are therefore rejected. -/
theorem C6_invalid_encoding_decode_error (cpu : RiscvCpu) (inst : Nat)
    (h0 : inst < 2 ^ 32)
    (h : getfield32 inst 2 0 ≠ 3 ∨ getfield32 inst 3 2 = 7) :
    cpu.execute inst = (ExecResult.decodeError, cpu) := by
  simp only [RiscvCpu.execute]
  rw [if_pos h]

/-- C6 witness: the reserved word `0x0000001F` (bits `[4:2] = 111`) is
rejected with `DecodeError` and the CPU is unchanged. -/
theorem C6_witness : cpu0.execute 0x0000001F = (ExecResult.decodeError, cpu0) :=
  C6_invalid_encoding_decode_error cpu0 0x0000001F (by decide) (by decide)

/-- C7: ADDI (opcode `0010011`, funct3 `000`) sets `rd` to
`rs1 + sext12(imm)` with wrapping (modulo `2^64`) arithmetic — the
source uses `wrapping_add`, so overflow is ignored rather than an
error. -/
theorem C7_addi_wrapping (cpu : RiscvCpu) (inst : Nat) (h0 : inst < 2 ^ 32)
    (h1 : getfield32 inst 2 0 = 3) (h2 : getfield32 inst 3 2 ≠ 7)
    (h3 : getfield32 inst 7 0 = 0b0010011)
    (h4 : getfield32 inst 3 12 = 0b000) :
    cpu.execute inst = (ExecResult.ok, writeReg cpu (getfield32 inst 5 7)
      ((cpu.ixu (getfield32 inst 5 15) + signext12to64 (getfield32 inst 12 20))
        % 2 ^ 64)) := by
  have hrd : getfield32 inst 5 7 < 32 := getfield32_lt inst 5 7
  have hrs : getfield32 inst 5 15 < 32 := getfield32_lt inst 5 15
  simp [RiscvCpu.execute, h1, h2, h3, h4, hrd, hrs]

/-- C7 witness: the claim's particular case `ADDI x10, x0, -4`
(word `0xffc00513`) on a reset CPU leaves
`x10 = 0xFFFFFFFFFFFFFFFC`. -/
theorem C7_witness : (cpu0.execute 0xffc00513).2.ixu 10 = 0xfffffffffffffffc := by
  rw [C7_addi_wrapping cpu0 0xffc00513 (by decide) (by decide) (by decide)
    (by decide) (by decide)]
  decide

/-- C8: SLTIU (opcode `0010011`, funct3 `011`) sets `rd` to 1 exactly
when `rs1` is below the sign-extended immediate under unsigned 64-bit
comparison: the immediate passes through `signext12to64` first and the
comparison is on the unsigned values, not against the raw 12-bit
field. -/
theorem C8_sltiu_sext_unsigned (cpu : RiscvCpu) (inst : Nat)
    (h0 : inst < 2 ^ 32)
    (h1 : getfield32 inst 2 0 = 3) (h2 : getfield32 inst 3 2 ≠ 7)
    (h3 : getfield32 inst 7 0 = 0b0010011)
    (h4 : getfield32 inst 3 12 = 0b011)
    (hv : cpu.ixu (getfield32 inst 5 15) < 2 ^ 64) :
    cpu.execute inst = (ExecResult.ok, writeReg cpu (getfield32 inst 5 7)
      (if cpu.ixu (getfield32 inst 5 15)
          < signext12to64 (getfield32 inst 12 20) then 1 else 0)) := by
  have hrd : getfield32 inst 5 7 < 32 := getfield32_lt inst 5 7
  have hrs : getfield32 inst 5 15 < 32 := getfield32_lt inst 5 15
  simp [RiscvCpu.execute, h1, h2, h3, h4, hrd, hrs]

/-- C8 witness: `SLTIU x12, x11, -4` (word `0xffc5b613`) with `x11 = 5`
sets `x12 = 1`: the immediate sign-extends to `0xFFFFFFFFFFFFFFFC`,
which as an unsigned value is far above 5 (a raw 12-bit comparison
against `0xFFC` would give the same here, but the sign-extended
comparison is what the theorem certifies). -/
theorem C8_witness :
    (RiscvCpu.execute
      { ixu := fun i => if i = 11 then 5 else 0, pc := 0, mem := [] }
      0xffc5b613).2.ixu 12 = 1 := by
  rw [C8_sltiu_sext_unsigned _ 0xffc5b613 (by decide) (by decide) (by decide)
    (by decide) (by decide) (by decide)]
  decide

/-- C9 counterexample: the claim quantifies over every program counter
value.  With `pc = 2^63` the word `0x80000997` (`AUIPC x19, 0x80000`)
makes `pc + (sext20(0x80000) << 12) = 2^63 + 0xFFFFFFF800000000`
overflow 64 bits; the source uses a plain non-wrapping `+`, which is a
debug-build arithmetic overflow (panic), so `x19` is never set. -/
theorem C9_counterexample :
    (RiscvCpu.execute { ixu := fun _ => 0, pc := 2 ^ 63, mem := [] }
      0x80000997).1 = ExecResult.panicked := by
  decide

/-- C9 amended: AUIPC (opcode `0010111`) sets `rd` to
`pc + (sext20(imm) << 12)` provided that sum does not overflow 64 bits
(the source's `+` is not wrapping); the claim's particular case with
`pc = 4` is covered, as is every non-overflowing input. -/
theorem C9_auipc_amended (cpu : RiscvCpu) (inst : Nat) (h0 : inst < 2 ^ 32)
    (h1 : getfield32 inst 2 0 = 3) (h2 : getfield32 inst 3 2 ≠ 7)
    (h3 : getfield32 inst 7 0 = 0b0010111)
    (hov : cpu.pc + ((signext20to64 (getfield32 inst 20 12) <<< 12) % 2 ^ 64)
      < 2 ^ 64) :
    cpu.execute inst = (ExecResult.ok, writeReg cpu (getfield32 inst 5 7)
      (cpu.pc + ((signext20to64 (getfield32 inst 20 12) <<< 12) % 2 ^ 64))) := by
  have hrd : getfield32 inst 5 7 < 32 := getfield32_lt inst 5 7
  have hov2 : cpu.pc + ((signext20to64 (getfield32 inst 20 12) <<< 12)
      % 18446744073709551616) < 18446744073709551616 := hov
  simp [RiscvCpu.execute, h1, h2, h3, hrd, hov2]

/-- C9 witness: the claim's particular case — with `pc = 4`,
`AUIPC x19, 0xDEAD` (word `0x0dead997`) yields
`x19 = 0x000000000DEAD004`. -/
theorem C9_witness :
    (RiscvCpu.execute { ixu := fun _ => 0, pc := 4, mem := [] }
      0x0dead997).2.ixu 19 = 0x000000000dead004 := by
  rw [C9_auipc_amended _ 0x0dead997 (by decide) (by decide) (by decide)
    (by decide) (by decide)]
  decide

/-- Whenever the 32-bit-format check passes, `execute` never returns
`DecodeError`: every other exit is `Ok` or a panic.  Proved by
enumerating the dispatch cases. -/
theorem execute_fst_ne_decodeError (cpu : RiscvCpu) (inst : Nat)
    (he : getfield32 inst 2 0 = 3) (hb : getfield32 inst 3 2 ≠ 7) :
    (cpu.execute inst).1 ≠ ExecResult.decodeError := by
  have hrd : getfield32 inst 5 7 < 32 := getfield32_lt inst 5 7
  have hrs : getfield32 inst 5 15 < 32 := getfield32_lt inst 5 15
  have hf3 : getfield32 inst 3 12 < 8 := getfield32_lt inst 3 12
  by_cases ho1 : getfield32 inst 7 0 = 23
  · by_cases hov : cpu.pc + ((signext20to64 (getfield32 inst 20 12) <<< 12)
        % 18446744073709551616) < 18446744073709551616
    · simp [RiscvCpu.execute, he, hb, ho1, hrd, hov]
    · simp [RiscvCpu.execute, he, hb, ho1, hrd, hov]
  · by_cases ho2 : getfield32 inst 7 0 = 55
    · simp [RiscvCpu.execute, he, hb, ho1, ho2, hrd]
    · by_cases ho3 : getfield32 inst 7 0 = 19
      · by_cases h30 : getfield32 inst 3 12 = 0
        · simp [RiscvCpu.execute, he, hb, ho1, ho2, ho3, hrd, hrs, h30]
        · by_cases h31 : getfield32 inst 3 12 = 1
          · simp [RiscvCpu.execute, he, hb, ho1, ho2, ho3, hrd, hrs, h30, h31]
          · by_cases h32 : getfield32 inst 3 12 = 2
            · simp [RiscvCpu.execute, he, hb, ho1, ho2, ho3, hrd, hrs, h30,
                h31, h32]
            · by_cases h33 : getfield32 inst 3 12 = 3
              · simp [RiscvCpu.execute, he, hb, ho1, ho2, ho3, hrd, hrs, h30,
                  h31, h32, h33]
              · by_cases h34 : getfield32 inst 3 12 = 4
                · simp [RiscvCpu.execute, he, hb, ho1, ho2, ho3, hrd, hrs,
                    h30, h31, h32, h33, h34]
                · by_cases h35 : getfield32 inst 3 12 = 5
                  · by_cases h70 : getfield32 inst 7 25 = 0
                    · simp [RiscvCpu.execute, he, hb, ho1, ho2, ho3, hrd, hrs,
                        h35, h70]
                    · by_cases h71 : getfield32 inst 7 25 = 32
                      · rcases hsig : signext_nto64
                          (cpu.ixu (getfield32 inst 5 15) >>> getfield32 inst 6 20)
                          (64 - getfield32 inst 6 20) with _ | v
                        · simp [RiscvCpu.execute, he, hb, ho1, ho2, ho3, hrd,
                            hrs, h35, h70, h71, hsig]
                        · simp [RiscvCpu.execute, he, hb, ho1, ho2, ho3, hrd,
                            hrs, h35, h70, h71, hsig]
                      · simp [RiscvCpu.execute, he, hb, ho1, ho2, ho3, hrd,
                          hrs, h35, h70, h71]
                  · by_cases h36 : getfield32 inst 3 12 = 6
                    · simp [RiscvCpu.execute, he, hb, ho1, ho2, ho3, hrd, hrs,
                        h30, h31, h32, h33, h34, h35, h36]
                    · by_cases h37 : getfield32 inst 3 12 = 7
                      · simp [RiscvCpu.execute, he, hb, ho1, ho2, ho3, hrd,
                          hrs, h30, h31, h32, h33, h34, h35, h36, h37]
                      · omega
      · simp [RiscvCpu.execute, he, hb, ho1, ho2, ho3]

/-- C10: whenever `execute` returns `DecodeError`, the architectural
state (register file, program counter, memory) is exactly the state
before the call: the only `DecodeError` return sits before any
mutation. -/
theorem C10_decode_error_atomic (cpu : RiscvCpu) (inst : Nat) :
    (cpu.execute inst).1 = ExecResult.decodeError → (cpu.execute inst).2 = cpu := by
  by_cases hc : getfield32 inst 2 0 ≠ 3 ∨ getfield32 inst 3 2 = 7
  · intro _
    simp only [RiscvCpu.execute]
    rw [if_pos hc]
  · push_neg at hc
    intro h
    exact absurd h (execute_fst_ne_decodeError cpu inst hc.1 hc.2)

/-- C10 witness: the rejected word `0x00000000` leaves the fresh CPU
unchanged. -/
theorem C10_witness : (cpu0.execute 0x00000000).2 = cpu0 :=
  C10_decode_error_atomic cpu0 0x00000000 (by decide)
